import Mathlib

/-!
# Verification development for the `bms` battery-management repository

This file shallowly embeds the parts of `src/bms.py` that the claims
C1–C10 are about, and proves (or refutes) each claim against the
embedding.  Python floats are modelled as rationals (`ℚ`), Python ints
as `ℤ`/`ℕ`, byte strings as `List ℕ` with entries `< 256`, and fallible
I/O as explicitly injected environments.

Modelled source functions keep their Python names where Lean allows it.
-/

namespace Bms

/-! ## Topology resolver (`get_bank_for_channel`, `get_battery_and_local_ch`,
and the `BANK_SENSOR_INDICES` construction from `main`, lines 3132–3142) -/

/-- Embedding of `BANK_SENSOR_INDICES` as built in `main`: for each bank (0-based
`bankId < numBanks`), the 0-based global sensor indices of that bank,
accumulated battery-by-battery:
`bat * (numBanks * spbk) + bankId * spbk + k` for `bat < numParallel`,
`k < spbk`. -/
def bankSensorIndices (numParallel numBanks spbk : ℕ) : List (List ℕ) :=
  (List.range numBanks).map (fun bankId =>
    ((List.range numParallel).map (fun bat =>
      (List.range spbk).map (fun k => bat * (numBanks * spbk) + bankId * spbk + k))).flatten)

/-- Helper for `get_bank_for_channel`: scan the bank lists in order,
returning the 1-based id of the first bank whose index list contains
`ch - 1`. -/
def findBank : List (List ℕ) → ℕ → ℤ → Option ℕ
  | [], _, _ => none
  | l :: ls, k, ch => if l.any (fun i => (i : ℤ) = ch - 1) then some k else findBank ls (k + 1) ch

/-- Model of `get_bank_for_channel` (bms.py:371): loops over `BANK_SENSOR_INDICES`
(1-based enumeration) and returns the first bank containing `ch - 1`,
else `None`. -/
def get_bank_for_channel (bsi : List (List ℕ)) (ch : ℤ) : Option ℕ :=
  findBank bsi 1 ch

/-- Model of `get_battery_and_local_ch` (bms.py:394): uses the hardcoded constant
`sensors_per_battery = 24` and Python floor division / modulo;
no range check of any kind. -/
def get_battery_and_local_ch (ch : ℤ) : ℤ × ℤ :=
  ((ch - 1).fdiv 24 + 1, (ch - 1).fmod 24 + 1)

/-- Modelled from the spec (§4.3): the *configured* battery/local
decomposition, partitioning `1..total_channels` into `num_parallel`
blocks of size `sensors_per_battery = num_series_banks * sensors_per_bank`.
This definition follows the spec's words and exists only to be compared
with `get_battery_and_local_ch` (claim C9). -/
def spec_battery_and_local (numBanks spbk : ℕ) (ch : ℤ) : ℤ × ℤ :=
  let spb : ℤ := (numBanks : ℤ) * (spbk : ℤ)
  ((ch - 1).fdiv spb + 1, (ch - 1).fmod spb + 1)

/-! ## Frame codec (`modbus_crc`, bms.py:417, and the checksum
verification used at bms.py:558–562) -/

/-- One bit round of the Modbus CRC-16: shift right, XOR with the
polynomial `0xA001` when the least significant bit was set. -/
def crcRound (c : ℕ) : ℕ :=
  if c &&& 1 = 1 then (c >>> 1) ^^^ 0xA001 else c >>> 1

/-- Process one byte: XOR into the running CRC, then 8 bit rounds. -/
def crcByte (c b : ℕ) : ℕ :=
  crcRound^[8] (c ^^^ b)

/-- The 16-bit CRC value of a byte sequence: initial value `0xFFFF`,
bytes processed left to right, LSB-first one bit at a time. -/
def modbus_crc_nat (data : List ℕ) : ℕ :=
  data.foldl crcByte 0xFFFF

/-- Model of `modbus_crc` (bms.py:417): the CRC encoded as 2 bytes little-endian
(`crc.to_bytes(2, 'little')`). -/
def modbus_crc (data : List ℕ) : List ℕ :=
  [modbus_crc_nat data % 256, modbus_crc_nat data / 256 % 256]

/-- Checksum verification as performed on a response frame
(bms.py:558–562): the CRC of all but the trailing 2 bytes must equal
those 2 bytes. -/
def verifyCrc (frame : List ℕ) : Bool :=
  decide (modbus_crc (frame.take (frame.length - 2)) = frame.drop (frame.length - 2))

/-- Explicit inverse of `crcRound` on 16-bit states: bit 15 of the output
records the shifted-out low bit (the polynomial `0xA001` has bit 15 set,
and the shifted state has bit 15 clear). -/
def crcRoundInv (d : ℕ) : ℕ :=
  if d.testBit 15 then 2 * (d ^^^ 0xA001) + 1 else 2 * d

/-! ## Transport client (`read_ntc_sensors`, bms.py:470–633)

I/O is injected: each retry-loop iteration either raises a socket error
or receives a byte string, and the network probe
(`test_modbus_connectivity`) reports up/down; both are supplied as an
environment list, one entry per potential attempt.  The Python
`except Exception` fallback (bms.py:629) is unreachable in this model
because the injected outcomes cover exactly the socket/validation
failures the code distinguishes. -/

/-- Model of `int.from_bytes(bs, 'big', signed=True)`. -/
def intFromBytesBE (bs : List ℕ) : ℤ :=
  let v : ℕ := bs.foldl (fun a b => a * 256 + b) 0
  let m : ℕ := 256 ^ bs.length
  if 2 * v ≥ m then (v : ℤ) - (m : ℤ) else (v : ℤ)

/-- Register decoding (bms.py:583–585): consecutive 2-byte big-endian
signed values, each divided by the scaling factor.  A trailing lone byte
is decoded from 1 byte, as `int.from_bytes` does on a short slice. -/
def decodePairs (scaling : ℚ) : List ℕ → List ℚ
  | [] => []
  | [b] => [(intFromBytesBE [b] : ℚ) / scaling]
  | b0 :: b1 :: rest => ((intFromBytesBE [b0, b1] : ℚ) / scaling) :: decodePairs scaling rest

/-- Outcome of validating one received response frame
(bms.py:549–585): raise `ValueError`, return a Modbus-exception error
string, or decode the temperatures. -/
inductive ValidationOutcome
  | valErr
  | exception (code : ℕ)
  | ok (ts : List ℚ)
deriving DecidableEq

/-- Response validation (bms.py:549–585): length `≥ 5`, checksum over
all but the trailing 2 bytes, unit id echo, function code 3 (error bit
returns the device exception code, i.e. `response[2]`), byte count
equals `num_channels * 2`, then register decode of `response[3:3+byte_count]`. -/
def validateResponse (slaveAddr numCh : ℕ) (scaling : ℚ) (r : List ℕ) : ValidationOutcome :=
  let expectedDataLength := numCh * 2
  if r.length < 5 then ValidationOutcome.valErr
  else if modbus_crc (r.take (r.length - 2)) ≠ r.drop (r.length - 2) then ValidationOutcome.valErr
  else
    let slave := r.getD 0 0
    let fn := r.getD 1 0
    let byteCount := r.getD 2 0
    if slave ≠ slaveAddr then ValidationOutcome.valErr
    else if fn ≠ 3 then
      (if fn &&& 0x80 ≠ 0 then ValidationOutcome.exception byteCount else ValidationOutcome.valErr)
    else if byteCount ≠ expectedDataLength then ValidationOutcome.valErr
    else ValidationOutcome.ok (decodePairs scaling ((r.drop 3).take byteCount))

/-- What one retry-loop iteration's I/O did: a socket error
(connect/send/recv failure or timeout), or a received byte string. -/
inductive AttemptEvent
  | sockErr
  | recvd (response : List ℕ)
deriving DecidableEq

/-- The possible returns of `read_ntc_sensors`, mirroring its Python
return values (a temperature list or one of the error strings, each of
which names the slave address). -/
inductive NtcResult
  | temps (ts : List ℚ)
  | excError (code : ℕ) (slave : ℕ)
  | failedAfter (attempts : ℕ) (slave : ℕ)
  | netUnreachable (slave : ℕ)
  | allExhausted (slave : ℕ)
deriving DecidableEq

/-- The retry loop of `read_ntc_sensors` (bms.py:508–633).  The input
list carries, for each remaining loop iteration, the attempt's I/O
outcome and what the connectivity probe would report; `nrc` is
`network_retry_count` and `used` counts attempts consumed so far.
`attempt < max_retries - 1` is `rest ≠ []` because the list starts with
exactly `max_retries` entries. -/
def readNtcGo (validate : List ℕ → ValidationOutcome) (slaveAddr maxRetries : ℕ) :
    List (AttemptEvent × Bool) → ℕ → ℕ → NtcResult × ℕ
  | [], _, used => (NtcResult.allExhausted slaveAddr, used)
  | (att, up) :: rest, nrc, used =>
    match att with
    | AttemptEvent.sockErr =>
      if up then
        match rest with
        | [] => (NtcResult.failedAfter maxRetries slaveAddr, used + 1)
        | _ :: _ => readNtcGo validate slaveAddr maxRetries rest nrc (used + 1)
      else
        if nrc + 1 < 3 then readNtcGo validate slaveAddr maxRetries rest (nrc + 1) (used + 1)
        else (NtcResult.netUnreachable slaveAddr, used + 1)
    | AttemptEvent.recvd resp =>
      match validate resp with
      | ValidationOutcome.ok ts => (NtcResult.temps ts, used + 1)
      | ValidationOutcome.exception c => (NtcResult.excError c slaveAddr, used + 1)
      | ValidationOutcome.valErr =>
        if up then
          match rest with
          | [] => (NtcResult.failedAfter maxRetries slaveAddr, used + 1)
          | _ :: _ => readNtcGo validate slaveAddr maxRetries rest nrc (used + 1)
        else
          if nrc + 1 < 3 then readNtcGo validate slaveAddr maxRetries rest (nrc + 1) (used + 1)
          else (NtcResult.netUnreachable slaveAddr, used + 1)

/-- Model of `read_ntc_sensors` (bms.py:470) over an injected I/O environment;
also returns the number of attempts consumed. -/
def read_ntc_sensors (attempts : List (AttemptEvent × Bool)) (slaveAddr numCh : ℕ)
    (scaling : ℚ) (maxRetries : ℕ) : NtcResult × ℕ :=
  readNtcGo (validateResponse slaveAddr numCh scaling) slaveAddr maxRetries attempts 0 0

/-! ## Voltage acquisition (`read_voltage_with_retry`, bms.py:1385–1484)

The per-sample ADC raw codes are injected: one list of raw codes per
retry attempt (the source takes 2 samples per attempt and retries up to
2 times). -/

/-- ADC code to volts (bms.py:1461–1463):
`raw * (6.144 / 32767) / divider_ratio * calibration_factor`. -/
def voltageOfRaw (dividerRatio calib : ℚ) (raw : ℕ) : ℚ :=
  (raw : ℚ) * (6144 / 1000 / 32767) / dividerRatio * calib

/-- The per-attempt reading list (bms.py:1458–1469): a raw code of zero
contributes the reading `0.0`, a non-zero code the converted voltage. -/
def attemptReadings (dividerRatio calib : ℚ) (raws : List ℕ) : List ℚ :=
  raws.map (fun r => if r ≠ 0 then voltageOfRaw dividerRatio calib r else 0)

/-- The retry loop of `read_voltage_with_retry` (bms.py:1421–1484):
average the samples, keep those within 5% of the average (denominator
is the average itself, or 1 when it is zero), return the mean of the
survivors, else retry; `none` when all attempts fail. -/
def readVoltageGo (dividerRatio calib : ℚ) : List (List ℕ) → Option ℚ
  | [] => none
  | raws :: rest =>
    let readings := attemptReadings dividerRatio calib raws
    if readings.isEmpty then readVoltageGo dividerRatio calib rest
    else
      let avg := readings.sum / readings.length
      let valid := readings.filter (fun r => decide (|r - avg| / (if avg ≠ 0 then avg else 1) ≤ 1 / 20))
      if valid.isEmpty then readVoltageGo dividerRatio calib rest
      else some (valid.sum / valid.length)

/-- Model of `read_voltage_with_retry` (bms.py:1385): `none` when the bank id is
out of configured range or when no attempt stabilises. -/
def read_voltage_with_retry (numBanks bankId : ℕ) (attemptRaws : List (List ℕ))
    (dividerRatio calib : ℚ) : Option ℚ :=
  if bankId > numBanks then none
  else readVoltageGo dividerRatio calib attemptRaws

/-- The per-poll voltage publication (bms.py:3254):
`v if v is not None else 0.0`. -/
def publishVoltage (v : Option ℚ) : ℚ :=
  v.getD 0

/-! ## Calibration store and poll pipeline (bms.py:3166–3228) -/

/-- Model of `statistics.median`: middle element of the sorted list, or the mean
of the two middle elements for even length. -/
def pyMedian (l : List ℚ) : ℚ :=
  let s := l.insertionSort (· ≤ ·)
  if l.length % 2 = 1 then s.getD (l.length / 2) 0
  else (s.getD (l.length / 2 - 1) 0 + s.getD (l.length / 2) 0) / 2

/-- Model of `min(l)` of a nonempty Python list (the empty case is unreachable at
the call sites modelled here). -/
def pyMin : List ℚ → ℚ
  | [] => 0
  | a :: t => t.foldl min a

/-- Model of `max(l)` of a nonempty Python list. -/
def pyMax : List ℚ → ℚ
  | [] => 0
  | a :: t => t.foldl max a

/-- The process-wide calibration globals `startup_set`, `startup_median`,
`startup_offsets`. -/
structure CalibState where
  startupSet : Bool
  startupMedian : ℚ
  startupOffsets : Option (List ℚ)
deriving DecidableEq

/-- The calibration step of one poll (bms.py:3188–3198): when not yet
calibrated and every one of the `total_channels` raw values exceeds
`valid_min` (`valid_count == total_channels`), set the median and the
per-channel offsets `median - raw[ch]`; afterwards, clear `startup_set`
if the offsets are absent. -/
def calibrationStep (validMin : ℚ) (totalChannels : ℕ) (st : CalibState) (raw : List ℚ) :
    CalibState :=
  let validCount := raw.countP (fun t => decide (validMin < t))
  let st1 :=
    if !st.startupSet && decide (validCount = totalChannels) then
      { startupSet := true, startupMedian := pyMedian raw,
        startupOffsets := some (raw.map (fun t => pyMedian raw - t)) }
    else st
  if st1.startupSet && st1.startupOffsets.isNone then { st1 with startupSet := false } else st1

/-- The calibrated reading list of one poll (bms.py:3200):
`raw + offset` when calibrated and valid, bare `raw` when valid but not
calibrated, `None` otherwise. -/
def calibratedTemps (validMin : ℚ) (st : CalibState) (totalChannels : ℕ) (raw : List ℚ) :
    List (Option ℚ) :=
  (List.range totalChannels).map (fun i =>
    let r := raw.getD i 0
    if st.startupSet ∧ validMin < r then some (r + (st.startupOffsets.getD []).getD i 0)
    else if validMin < r then some r
    else none)

/-- Raw-vector assembly of one poll (bms.py:3169–3186): each unit
contributes its temperature list, or `sensors_per_battery` copies of the
`valid_min` sentinel when its read returned an error string. -/
def assembleRaw (validMin : ℚ) (spb : ℕ) (unitResults : List (Option (List ℚ))) : List ℚ :=
  (unitResults.map (fun r =>
    match r with
    | none => List.replicate spb validMin
    | some ts => ts)).flatten

/-- The alert vocabulary of the temperature pipeline; each constructor
carries the identifying data its Python alert string carries. -/
inductive TempAlert
  | slaveFailed (addr : ℕ)
  | invalidReading (batId : ℤ) (bank : Option ℕ) (localCh : ℤ)
  | highTemp (batId : ℤ) (bank : Option ℕ) (localCh : ℤ) (value : ℚ)
  | lowTemp (batId : ℤ) (bank : Option ℕ) (localCh : ℤ) (value : ℚ)
  | deviation (batId : ℤ) (bank : Option ℕ) (localCh : ℤ) (absDev relDev : ℚ)
  | balanceFailed (high low : ℕ) (highChange lowChange : ℚ)
deriving DecidableEq

/-- The static per-channel checks of one poll (bms.py:3205–3213 with
check_invalid_reading/check_high_temp/check_low_temp/check_deviation,
bms.py:1117–1240): an invalid raw reading (`raw ≤ valid_min`) reports
one invalid-reading alert and skips every other check; otherwise the
high, low and deviation checks run on the calibrated value (a number on
this path, read here as `getD 0`). -/
def channelStaticAlerts (validMin hiThr loThr absDevThr relDevThr : ℚ)
    (bsi : List (List ℕ)) (bankMedians : List ℚ) (raw : List ℚ)
    (calibrated : List (Option ℚ)) (i : ℕ) : List TempAlert :=
  let ch : ℤ := (i : ℤ) + 1
  let r := raw.getD i 0
  let bank := get_bank_for_channel bsi ch
  let bl := get_battery_and_local_ch ch
  if r ≤ validMin then [TempAlert.invalidReading bl.1 bank bl.2]
  else
    let calib := (calibrated.getD i none).getD 0
    let bankMedian := bankMedians.getD (bank.getD 1 - 1) 0
    let absDev := |calib - bankMedian|
    let relDev := if bankMedian ≠ 0 then absDev / |bankMedian| else 0
    (if hiThr < calib then [TempAlert.highTemp bl.1 bank bl.2 calib] else [])
    ++ (if calib < loThr then [TempAlert.lowTemp bl.1 bank bl.2 calib] else [])
    ++ (if absDevThr < absDev ∨ relDevThr < relDev then
          [TempAlert.deviation bl.1 bank bl.2 absDev relDev] else [])

/-- The whole static-check loop of one poll, in channel order. -/
def staticChecks (validMin hiThr loThr absDevThr relDevThr : ℚ)
    (bsi : List (List ℕ)) (bankMedians : List ℚ) (raw : List ℚ)
    (calibrated : List (Option ℚ)) : List TempAlert :=
  ((List.range raw.length).map
    (channelStaticAlerts validMin hiThr loThr absDevThr relDevThr bsi bankMedians raw calibrated)).flatten

/-- One bank's statistics (`compute_bank_medians`, bms.py:1827). -/
structure BankStats where
  median : ℚ
  min : ℚ
  max : ℚ
  invalid : ℕ
deriving DecidableEq

/-- Model of `compute_bank_medians` (bms.py:1827–1863): per bank, the valid
calibrated readings' median/min/max and the invalid count; an all-invalid
bank reports zeros. -/
def compute_bank_medians (bsi : List (List ℕ)) (calibrated : List (Option ℚ)) : List BankStats :=
  bsi.map (fun indices =>
    let bankTemps := indices.filterMap (fun i => calibrated.getD i none)
    let invalidCount := indices.length - bankTemps.length
    if bankTemps.isEmpty then ⟨0, 0, 0, invalidCount⟩
    else ⟨pyMedian bankTemps, pyMin bankTemps, pyMax bankTemps, invalidCount⟩)

/-! ## Balance controller (`balance_battery_voltages`, bms.py:1677–1825)

Voltage reads during the operation are injected through a `BalanceEnv`:
the two initial reads, the periodic re-sample reads of the
fixed-duration loop, and the two final reads. -/

/-- The injected voltage reads of one balance operation. -/
structure BalanceEnv where
  initialHigh : Option ℚ
  initialLow : Option ℚ
  midReads : List (Option ℚ × Option ℚ)
  finalHigh : Option ℚ
  finalLow : Option ℚ
deriving DecidableEq

/-- How `voltage_high`/`voltage_low` track the periodic re-samples
(bms.py:1759–1760): a failed read keeps the previous value. -/
def trackVoltage (v0 : ℚ) (reads : List (Option ℚ)) : ℚ :=
  reads.foldl (fun v r => r.getD v) v0

/-- Value of `final_high_v` after the final read (bms.py:1787–1789): the final
read, or the last tracked value if it failed. -/
def finalHighOf (env : BalanceEnv) : ℚ :=
  env.finalHigh.getD (trackVoltage (env.initialHigh.getD 0) (env.midReads.map Prod.fst))

/-- Value of `final_low_v` after the final read (bms.py:1788–1790). -/
def finalLowOf (env : BalanceEnv) : ℚ :=
  env.finalLow.getD (trackVoltage (env.initialLow.getD 0) (env.midReads.map Prod.snd))

/-- Where `balance_battery_voltages` exits. -/
inductive BalanceOutcome
  | skippedTempAlerts
  | skippedZeroDest
  | failedVerification
  | verified
  | insufficientReadings
  | typeError
deriving DecidableEq

/-- What one call to `balance_battery_voltages` did. -/
structure BalanceResult where
  outcome : BalanceOutcome
  /-- the `balancer_failed` latch after the call -/
  balancerFailed : Bool
  /-- whether a diagnostic alert was appended to `temps_alerts` -/
  alertAppended : Bool
  /-- whether `set_relay_connection(high, low, ...)` was reached -/
  relaysSet : Bool
  /-- whether `control_dcdc_converter(True, ...)` was reached -/
  converterOn : Bool
deriving DecidableEq

/-- Model of `balance_battery_voltages` (bms.py:1677–1825) as a function of the
pre-call latch, the temperature-alert list and the injected voltage
reads.  Mirrors the control flow: return before any actuation when
`temps_alerts` is non-empty (bms.py:1704–1706); return when the initial
destination read equals `0.0` (bms.py:1722–1726); otherwise actuate,
then verify only when both trend lists have at least 3 entries
(initial + re-samples + final), failing when
`high_change >= 0 or low_change <= 0 or abs(high_change) < min_delta or
low_change < min_delta` (bms.py:1804–1820); an initial read of `None`
reaching verification is the Python `TypeError` of `float - None`. -/
def balance_battery_voltages (tempsAlerts : List TempAlert) (minDelta : ℚ) (latch0 : Bool)
    (env : BalanceEnv) : BalanceResult :=
  if tempsAlerts ≠ [] then ⟨BalanceOutcome.skippedTempAlerts, latch0, false, false, false⟩
  else if env.initialLow = some 0 then ⟨BalanceOutcome.skippedZeroDest, latch0, false, false, false⟩
  else if env.midReads.length + 2 ≥ 3 then
    match env.initialHigh, env.initialLow with
    | some ih, some il =>
      let hc := finalHighOf env - ih
      let lc := finalLowOf env - il
      if 0 ≤ hc ∨ lc ≤ 0 ∨ |hc| < minDelta ∨ lc < minDelta then
        ⟨BalanceOutcome.failedVerification, true, true, true, true⟩
      else ⟨BalanceOutcome.verified, latch0, false, true, true⟩
    | _, _ => ⟨BalanceOutcome.typeError, latch0, false, true, true⟩
  else ⟨BalanceOutcome.insufficientReadings, latch0, false, true, true⟩

/-! ## Issue aggregator (`check_for_issues`, bms.py:1602–1675) -/

/-- The merged alert vocabulary of `check_for_issues`. -/
inductive IssueAlert
  | startupFailures
  | balancerFailure
  | zeroVoltage (bank : ℕ)
  | highVoltage (bank : ℕ) (v : ℚ)
  | lowVoltage (bank : ℕ) (v : ℚ)
  | temp (a : TempAlert)
deriving DecidableEq

/-- The per-bank voltage scan of `check_for_issues` (bms.py:1631–1658),
banks enumerated from `i`. -/
def voltageIssueAlerts (hiV loV : ℚ) : ℕ → List (Option ℚ) → List IssueAlert
  | _, [] => []
  | i, v :: rest =>
    (match v with
     | none => [IssueAlert.zeroVoltage i]
     | some x =>
       if x = 0 then [IssueAlert.zeroVoltage i]
       else if hiV < x then [IssueAlert.highVoltage i x]
       else if x < loV then [IssueAlert.lowVoltage i x]
       else []) ++ voltageIssueAlerts hiV loV (i + 1) rest

/-- Model of `check_for_issues` (bms.py:1602–1675): `alert_needed` starts from the
startup/balancer latches, every voltage issue or temperature alert sets
it, and the returned alert list is startup failures, then the
balancer-failure alert, then the voltage alerts, then the temperature
alerts. -/
def check_for_issues (startupFailed balancerFailed startupAlertsNonempty : Bool)
    (hiV loV : ℚ) (voltages : List (Option ℚ)) (tempsAlerts : List TempAlert) :
    Bool × List IssueAlert :=
  let vAlerts := voltageIssueAlerts hiV loV 1 voltages
  let alertNeeded := startupFailed || balancerFailed || !vAlerts.isEmpty || !tempsAlerts.isEmpty
  let alerts :=
    (if startupFailed && startupAlertsNonempty then [IssueAlert.startupFailures] else [])
    ++ (if balancerFailed then [IssueAlert.balancerFailure] else [])
    ++ vAlerts ++ tempsAlerts.map IssueAlert.temp
  (alertNeeded, alerts)

/-! ## Per-cycle balance decision (bms.py:3262–3274) -/

/-- The per-cycle balance decision of `main` (bms.py:3263–3271): whether
`balance_battery_voltages` is called this cycle.  Nothing is called once
the `balancer_failed` latch is set. -/
def balanceDecision (numBanks : ℕ) (voltages : List ℚ)
    (balancerFailed balancingActive alertNeeded anyLowTemp : Bool)
    (now lastBalance restPeriod diffThreshold : ℚ) : Bool :=
  if voltages.length = numBanks ∧ balancerFailed = false then
    balancingActive
      || (!alertNeeded
          && (anyLowTemp || decide (diffThreshold < pyMax voltages - pyMin voltages))
          && decide (0 < pyMin voltages)
          && decide (restPeriod < now - lastBalance))
  else false

/-- Everything one poll cycle feeds into the balance decision and the
balance operation. -/
structure CycleInput where
  voltages : List ℚ
  balancingActive : Bool
  alertNeeded : Bool
  anyLowTemp : Bool
  now : ℚ
  lastBalance : ℚ
  tempsAlerts : List TempAlert
  env : BalanceEnv
deriving DecidableEq

/-- How one poll cycle transforms the `balancer_failed` latch: if the
balance decision fires, the latch becomes whatever
`balance_battery_voltages` leaves; otherwise it is untouched. -/
def cycleLatchStep (numBanks : ℕ) (restPeriod diffThr minDelta : ℚ)
    (latch : Bool) (c : CycleInput) : Bool :=
  if balanceDecision numBanks c.voltages latch c.balancingActive c.alertNeeded c.anyLowTemp
      c.now c.lastBalance restPeriod diffThr then
    (balance_battery_voltages c.tempsAlerts minDelta latch c.env).balancerFailed
  else latch

/-! ### CRC facts: the bit round is invertible on 16-bit states, hence the
byte step and the whole fold are injective in both the state and any one
byte, which is what makes single-byte corruption detectable.  -/

theorem crcRound_lt {c : ℕ} (h : c < 2 ^ 16) : crcRound c < 2 ^ 16 := by
  have h2 : c >>> 1 < 2 ^ 16 := by
    rw [Nat.shiftRight_one]; omega
  unfold crcRound
  split
  · exact Nat.xor_lt_two_pow h2 (by norm_num)
  · exact h2

theorem crcRoundInv_crcRound {c : ℕ} (h : c < 2 ^ 16) : crcRoundInv (crcRound c) = c := by
  have hs : c >>> 1 = c / 2 := Nat.shiftRight_one c
  have htb : (c >>> 1).testBit 15 = false := by
    rw [hs]; exact Nat.testBit_lt_two_pow (by omega)
  have hand : c &&& 1 = c % 2 := Nat.and_one_is_mod c
  by_cases hodd : c &&& 1 = 1
  · have hm : c % 2 = 1 := hand ▸ hodd
    have h15 : ((c >>> 1) ^^^ 0xA001).testBit 15 = true := by
      rw [Nat.testBit_xor, htb]; rfl
    rw [crcRound, if_pos hodd, crcRoundInv, if_pos h15,
        Nat.xor_assoc, Nat.xor_self, Nat.xor_zero, hs]
    omega
  · have hm : c % 2 = 0 := by
      rcases Nat.mod_two_eq_zero_or_one c with h0 | h1
      · exact h0
      · exact absurd (hand.trans h1) hodd
    rw [crcRound, if_neg hodd, crcRoundInv, if_neg (by simp [htb]), hs]
    omega

theorem crcRound_iterate_lt {c : ℕ} (h : c < 2 ^ 16) (n : ℕ) : crcRound^[n] c < 2 ^ 16 := by
  induction n generalizing c with
  | zero => simpa using h
  | succ n ih =>
    rw [Function.iterate_succ_apply]
    exact ih (crcRound_lt h)

theorem crcRound_iterate_inj {c c' : ℕ} (hc : c < 2 ^ 16) (hc' : c' < 2 ^ 16) (n : ℕ)
    (h : crcRound^[n] c = crcRound^[n] c') : c = c' := by
  induction n generalizing c c' with
  | zero => simpa using h
  | succ n ih =>
    rw [Function.iterate_succ_apply, Function.iterate_succ_apply] at h
    have heq := ih (crcRound_lt hc) (crcRound_lt hc') h
    calc c = crcRoundInv (crcRound c) := (crcRoundInv_crcRound hc).symm
      _ = crcRoundInv (crcRound c') := by rw [heq]
      _ = c' := crcRoundInv_crcRound hc'

theorem crcByte_lt {c b : ℕ} (hc : c < 2 ^ 16) (hb : b < 2 ^ 16) : crcByte c b < 2 ^ 16 :=
  crcRound_iterate_lt (Nat.xor_lt_two_pow hc hb) 8

theorem crcByte_injState {c c' b : ℕ} (hc : c < 2 ^ 16) (hc' : c' < 2 ^ 16) (hb : b < 2 ^ 16)
    (h : crcByte c b = crcByte c' b) : c = c' := by
  have hx := crcRound_iterate_inj (Nat.xor_lt_two_pow hc hb) (Nat.xor_lt_two_pow hc' hb) 8 h
  calc c = (c ^^^ b) ^^^ b := (Nat.xor_cancel_right b c).symm
    _ = (c' ^^^ b) ^^^ b := by rw [hx]
    _ = c' := Nat.xor_cancel_right b c'

theorem crcByte_injByte {c b b' : ℕ} (hc : c < 2 ^ 16) (hb : b < 2 ^ 16) (hb' : b' < 2 ^ 16)
    (h : crcByte c b = crcByte c b') : b = b' := by
  have hx := crcRound_iterate_inj (Nat.xor_lt_two_pow hc hb) (Nat.xor_lt_two_pow hc hb') 8 h
  calc b = c ^^^ (c ^^^ b) := (Nat.xor_cancel_left c b).symm
    _ = c ^^^ (c ^^^ b') := by rw [hx]
    _ = b' := Nat.xor_cancel_left c b'

theorem foldl_crcByte_lt {l : List ℕ} (hl : ∀ b ∈ l, b < 256) {c : ℕ} (hc : c < 2 ^ 16) :
    l.foldl crcByte c < 2 ^ 16 := by
  induction l generalizing c with
  | nil => simpa using hc
  | cons b t ih =>
    simp only [List.foldl_cons]
    refine ih (fun x hx => hl x (List.mem_cons_of_mem _ hx)) ?_
    exact crcByte_lt hc (lt_trans (hl b (List.mem_cons_self _ _)) (by norm_num))

theorem foldl_crcByte_injState {l : List ℕ} (hl : ∀ b ∈ l, b < 256) {c c' : ℕ}
    (hc : c < 2 ^ 16) (hc' : c' < 2 ^ 16)
    (h : l.foldl crcByte c = l.foldl crcByte c') : c = c' := by
  induction l generalizing c c' with
  | nil => simpa using h
  | cons b t ih =>
    simp only [List.foldl_cons] at h
    have hb : b < 2 ^ 16 := lt_trans (hl b (List.mem_cons_self _ _)) (by norm_num)
    have ht : ∀ x ∈ t, x < 256 := fun x hx => hl x (List.mem_cons_of_mem _ hx)
    exact crcByte_injState hc hc' hb (ih ht (crcByte_lt hc hb) (crcByte_lt hc' hb) h)

/-- Changing one payload byte changes the 16-bit CRC value. -/
theorem modbus_crc_nat_flip_ne {pre suf : List ℕ} {b b' : ℕ}
    (hpre : ∀ x ∈ pre, x < 256) (hsuf : ∀ x ∈ suf, x < 256)
    (hb : b < 256) (hb' : b' < 256) (hne : b ≠ b') :
    modbus_crc_nat (pre ++ b :: suf) ≠ modbus_crc_nat (pre ++ b' :: suf) := by
  intro h
  simp only [modbus_crc_nat, List.foldl_append, List.foldl_cons] at h
  have hc : pre.foldl crcByte 0xFFFF < 2 ^ 16 := foldl_crcByte_lt hpre (by norm_num)
  have hb16 : b < 2 ^ 16 := lt_trans hb (by norm_num)
  have hb'16 : b' < 2 ^ 16 := lt_trans hb' (by norm_num)
  have h1 : crcByte (pre.foldl crcByte 0xFFFF) b = crcByte (pre.foldl crcByte 0xFFFF) b' :=
    foldl_crcByte_injState hsuf (crcByte_lt hc hb16) (crcByte_lt hc hb'16) h
  exact hne (crcByte_injByte hc hb16 hb'16 h1)

theorem modbus_crc_nat_lt {data : List ℕ} (h : ∀ b ∈ data, b < 256) :
    modbus_crc_nat data < 2 ^ 16 :=
  foldl_crcByte_lt h (by norm_num)

/-- The 2-byte little-endian encoding is injective on 16-bit CRC values. -/
theorem modbus_crc_eq_of_bytes_eq {x y : List ℕ} (hx : ∀ b ∈ x, b < 256) (hy : ∀ b ∈ y, b < 256)
    (h : modbus_crc x = modbus_crc y) : modbus_crc_nat x = modbus_crc_nat y := by
  simp only [modbus_crc, List.cons.injEq, and_true] at h
  have h1 := modbus_crc_nat_lt hx
  have h2 := modbus_crc_nat_lt hy
  omega

/-- Evaluation of `verifyCrc` on a frame with an explicit 2-byte tail compares the
recomputed CRC of the payload with that tail. -/
theorem verifyCrc_append (data tail : List ℕ) (hlen : tail.length = 2) :
    verifyCrc (data ++ tail) = decide (modbus_crc data = tail) := by
  have h1 : (data ++ tail).length - 2 = data.length := by
    simp [List.length_append, hlen]
  rw [verifyCrc, h1, List.take_left' rfl, List.drop_left' rfl]

/-- C8: Checksum round trip and error detection.  For every byte sequence,
appending the CRC-16 (polynomial `0xA001`, initial `0xFFFF`, LSB-first bit
at a time over every byte, encoded as 2 bytes little-endian) yields a frame
whose checksum verification succeeds, and flipping any single byte of that
frame (payload or appended checksum) makes verification fail. -/
theorem crc_roundtrip_and_error_detection (data : List ℕ) (hdata : ∀ b ∈ data, b < 256) :
    verifyCrc (data ++ modbus_crc data) = true ∧
    ∀ i b', i < (data ++ modbus_crc data).length → b' < 256 →
      b' ≠ (data ++ modbus_crc data).getD i 0 →
      verifyCrc ((data ++ modbus_crc data).set i b') = false := by
  have hlen2 : (modbus_crc data).length = 2 := rfl
  constructor
  · rw [verifyCrc_append _ _ hlen2]
    simp
  · intro i b' hi hb' hne
    by_cases hip : i < data.length
    · -- payload byte flipped
      have hgd : (data ++ modbus_crc data).getD i 0 = data.getD i 0 := by
        simp [List.getD_eq_getElem?_getD, List.getElem?_append_left hip]
      have hgde : data.getD i 0 = data.get ⟨i, hip⟩ := by
        simp [List.getD_eq_getElem?_getD, List.getElem?_eq_getElem hip]
      have hset : (data ++ modbus_crc data).set i b' = data.set i b' ++ modbus_crc data :=
        List.set_append_left _ _ hip
      rw [hset, verifyCrc_append _ _ hlen2, decide_eq_false_iff_not]
      intro hcrc
      have hmemset : ∀ x ∈ data.set i b', x < 256 := by
        intro x hx
        rcases List.mem_or_eq_of_mem_set hx with hmem | hxeq
        · exact hdata x hmem
        · exact hxeq ▸ hb'
      have hnat : modbus_crc_nat (data.set i b') = modbus_crc_nat data :=
        modbus_crc_eq_of_bytes_eq hmemset hdata hcrc
      have hdecomp : data = data.take i ++ data.get ⟨i, hip⟩ :: data.drop (i + 1) := by
        conv_lhs => rw [← List.take_append_drop i data]
        rw [List.drop_eq_getElem_cons hip]
        rfl
      have hsetdecomp : data.set i b' = data.take i ++ b' :: data.drop (i + 1) :=
        List.set_eq_take_cons_drop b' hip
      have hpre : ∀ x ∈ data.take i, x < 256 := fun x hx => hdata x (List.mem_of_mem_take hx)
      have hsuf : ∀ x ∈ data.drop (i + 1), x < 256 := fun x hx => hdata x (List.mem_of_mem_drop hx)
      have hgmem : data.get ⟨i, hip⟩ < 256 := hdata _ (List.get_mem data i hip)
      have hne' : b' ≠ data.get ⟨i, hip⟩ := by
        rw [hgd, hgde] at hne; exact hne
      refine modbus_crc_nat_flip_ne hpre hsuf hb' hgmem hne' ?_
      rw [← hsetdecomp, ← hdecomp]
      exact hnat
    · -- a byte of the appended checksum flipped
      push_neg at hip
      have hset : (data ++ modbus_crc data).set i b'
          = data ++ (modbus_crc data).set (i - data.length) b' :=
        List.set_append_right _ _ hip
      have hilen : i - data.length < 2 := by
        rw [List.length_append, hlen2] at hi
        omega
      have hgd : (data ++ modbus_crc data).getD i 0 = (modbus_crc data).getD (i - data.length) 0 := by
        simp [List.getD_eq_getElem?_getD, List.getElem?_append_right hip]
      rw [hset, verifyCrc_append _ _ (by simp [hlen2]), decide_eq_false_iff_not]
      rw [hgd] at hne
      intro hcrc
      have hcases : i - data.length = 0 ∨ i - data.length = 1 := by omega
      rcases hcases with hj | hj <;>
        · rw [hj] at hne
          simp only [modbus_crc, hj, List.set_cons_zero, List.set_cons_succ,
            List.cons.injEq, List.getD_cons_zero, List.getD_cons_succ] at hcrc hne
          tauto

/-- Witness for C8 at the concrete Modbus query payload `[1, 3, 0, 0, 0, 2]`
(whose CRC is `[196, 11]`), flipping the first payload byte to `2`. -/
theorem crc_roundtrip_and_error_detection_witness :
    (∀ b ∈ [1, 3, 0, 0, 0, 2], b < 256) ∧
      verifyCrc ([1, 3, 0, 0, 0, 2] ++ modbus_crc [1, 3, 0, 0, 0, 2]) = true ∧
      verifyCrc (([1, 3, 0, 0, 0, 2] ++ modbus_crc [1, 3, 0, 0, 0, 2]).set 0 2) = false :=
  ⟨by decide, (crc_roundtrip_and_error_detection [1, 3, 0, 0, 0, 2] (by decide)).1,
    (crc_roundtrip_and_error_detection [1, 3, 0, 0, 0, 2] (by decide)).2 0 2
      (by decide) (by decide) (by decide)⟩

/-- C6: Retry exhaustion.  With `max_retries = 3` and every attempt
failing by a socket timeout while the connectivity probe reports the
link up, `read_ntc_sensors` terminates after exactly 3 attempts with the
failure that names the slave address, and in particular never returns a
(partial) temperature list. -/
theorem retry_exhaustion (slaveAddr numCh : ℕ) (scaling : ℚ) :
    read_ntc_sensors (List.replicate 3 (AttemptEvent.sockErr, true)) slaveAddr numCh scaling 3
      = (NtcResult.failedAfter 3 slaveAddr, 3) ∧
    ∀ ts : List ℚ,
      (read_ntc_sensors (List.replicate 3 (AttemptEvent.sockErr, true)) slaveAddr numCh
          scaling 3).1 ≠ NtcResult.temps ts := by
  have h : read_ntc_sensors (List.replicate 3 (AttemptEvent.sockErr, true)) slaveAddr numCh
      scaling 3 = (NtcResult.failedAfter 3 slaveAddr, 3) := rfl
  refine ⟨h, fun ts hts => ?_⟩
  rw [h] at hts
  exact NtcResult.noConfusion hts

/-- C3: Temperature-alert guard.  Whenever the temperature-alert list is
non-empty, `balance_battery_voltages` returns before asserting any relay
line or enabling the DC-DC converter, leaves the latch untouched and
appends nothing — regardless of the injected voltages (i.e. of any
voltage spread) and of how the request arose. -/
theorem temp_alert_guard (tempsAlerts : List TempAlert) (h : tempsAlerts ≠ [])
    (minDelta : ℚ) (latch0 : Bool) (env : BalanceEnv) :
    balance_battery_voltages tempsAlerts minDelta latch0 env
      = ⟨BalanceOutcome.skippedTempAlerts, latch0, false, false, false⟩ := by
  simp [balance_battery_voltages, h]

/-- Witness for C3: an outstanding alert with a huge voltage spread
(100 V vs 1 V) still never leaves Idle. -/
theorem temp_alert_guard_witness :
    [TempAlert.slaveFailed 1] ≠ ([] : List TempAlert) ∧
      balance_battery_voltages [TempAlert.slaveFailed 1] (1 / 100) false
          ⟨some 100, some 1, [(some 50, some 50)], some 100, some 1⟩
        = ⟨BalanceOutcome.skippedTempAlerts, false, false, false, false⟩ :=
  ⟨by decide, temp_alert_guard [TempAlert.slaveFailed 1] (by decide) (1 / 100) false _⟩

/-- C2: Latch invariant.  (1) After any `balance_battery_voltages` call
the latch equals its old value or-ed with "this run failed verification"
— so it is set only by a failed verification and is never cleared;
(2) with the latch set, the per-cycle balance decision never starts a
balance operation; (3) with the latch set, `check_for_issues` includes
the balancer-failure alert and reports that attention is needed;
(4) once set, the latch survives every sequence of subsequent poll
cycles. -/
theorem latch_invariant (numBanks : ℕ) :
    (∀ (tempsAlerts : List TempAlert) (minDelta : ℚ) (latch0 : Bool) (env : BalanceEnv),
      (balance_battery_voltages tempsAlerts minDelta latch0 env).balancerFailed
        = (latch0 || decide ((balance_battery_voltages tempsAlerts minDelta latch0 env).outcome
            = BalanceOutcome.failedVerification))) ∧
    (∀ (voltages : List ℚ) (balancingActive alertNeeded anyLowTemp : Bool)
        (now lastBalance restPeriod diffThr : ℚ),
      balanceDecision numBanks voltages true balancingActive alertNeeded anyLowTemp
        now lastBalance restPeriod diffThr = false) ∧
    (∀ (startupFailed startupAlertsNonempty : Bool) (hiV loV : ℚ)
        (voltages : List (Option ℚ)) (tempsAlerts : List TempAlert),
      IssueAlert.balancerFailure
          ∈ (check_for_issues startupFailed true startupAlertsNonempty hiV loV voltages
              tempsAlerts).2
        ∧ (check_for_issues startupFailed true startupAlertsNonempty hiV loV voltages
            tempsAlerts).1 = true) ∧
    (∀ (restPeriod diffThr minDelta : ℚ) (cycles : List CycleInput),
      List.foldl (cycleLatchStep numBanks restPeriod diffThr minDelta) true cycles = true) := by
  have hdec : ∀ (voltages : List ℚ) (balancingActive alertNeeded anyLowTemp : Bool)
      (now lastBalance restPeriod diffThr : ℚ),
      balanceDecision numBanks voltages true balancingActive alertNeeded anyLowTemp
        now lastBalance restPeriod diffThr = false := by
    intro voltages balancingActive alertNeeded anyLowTemp now lastBalance restPeriod diffThr
    simp [balanceDecision]
  refine ⟨?_, hdec, ?_, ?_⟩
  · intro tempsAlerts minDelta latch0 env
    unfold balance_battery_voltages
    split
    · simp
    · split
      · simp
      · split
        · split
          · dsimp only
            split
            · simp
            · simp
          · simp
        · simp
  · intro startupFailed startupAlertsNonempty hiV loV voltages tempsAlerts
    constructor
    · simp [check_for_issues]
    · simp [check_for_issues]
  · intro restPeriod diffThr minDelta cycles
    induction cycles with
    | nil => rfl
    | cons c cs ih =>
      have hstep : cycleLatchStep numBanks restPeriod diffThr minDelta true c = true := by
        unfold cycleLatchStep
        rw [hdec c.voltages c.balancingActive c.alertNeeded c.anyLowTemp c.now c.lastBalance
          restPeriod diffThr]
        simp
      rw [List.foldl_cons, hstep]
      exact ih

/-- C1 counterexample: a balancing run that collects only 2 voltage
samples per bank (initial and final, no mid-operation re-sample) and
shows no voltage change.  The claim demands Failed with latch set and a
diagnostic alert; the code (bms.py:1819–1820) only logs a warning: the
latch stays clear and no alert is appended. -/
theorem balance_insufficient_readings_counterexample :
    balance_battery_voltages [] (1 / 100) false
        ⟨some (41 / 2), some 19, [], some (41 / 2), some 19⟩
      = ⟨BalanceOutcome.insufficientReadings, false, false, true, true⟩ := by
  decide

/-- C1 (amended): with successful initial reads, a non-zero initial
destination voltage and at least one mid-operation re-sample (hence at
least 3 samples per bank), the run is Verified iff
`source_change < 0 ∧ dest_change > 0 ∧ |source_change| ≥ min_delta ∧
dest_change ≥ min_delta`; any violation gives Failed, sets the
process-wide latch and appends the diagnostic alert.  With fewer than 3
samples the code skips verification entirely: the run is neither
Verified nor Failed, the latch is unchanged and no alert is appended. -/
theorem balance_verification_amended (env : BalanceEnv) (minDelta : ℚ) (latch0 : Bool)
    (ih il : ℚ) (hih : env.initialHigh = some ih) (hil : env.initialLow = some il)
    (hnz : il ≠ 0) :
    (env.midReads ≠ [] →
      (((balance_battery_voltages [] minDelta latch0 env).outcome = BalanceOutcome.verified)
        ↔ (finalHighOf env - ih < 0 ∧ 0 < finalLowOf env - il
            ∧ minDelta ≤ |finalHighOf env - ih| ∧ minDelta ≤ finalLowOf env - il)) ∧
      (¬ (finalHighOf env - ih < 0 ∧ 0 < finalLowOf env - il
            ∧ minDelta ≤ |finalHighOf env - ih| ∧ minDelta ≤ finalLowOf env - il) →
        balance_battery_voltages [] minDelta latch0 env
          = ⟨BalanceOutcome.failedVerification, true, true, true, true⟩)) ∧
    (env.midReads = [] →
      balance_battery_voltages [] minDelta latch0 env
        = ⟨BalanceOutcome.insufficientReadings, latch0, false, true, true⟩) := by
  have hzero : ¬ env.initialLow = some 0 := by
    rw [hil]
    simp [hnz]
  constructor
  · intro hmid
    have hlen : env.midReads.length + 2 ≥ 3 := by
      have := List.length_pos.mpr hmid
      omega
    have hform : balance_battery_voltages [] minDelta latch0 env
        = if 0 ≤ finalHighOf env - ih ∨ finalLowOf env - il ≤ 0
            ∨ |finalHighOf env - ih| < minDelta ∨ finalLowOf env - il < minDelta then
            ⟨BalanceOutcome.failedVerification, true, true, true, true⟩
          else ⟨BalanceOutcome.verified, latch0, false, true, true⟩ := by
      unfold balance_battery_voltages
      rw [if_neg (by simp), if_neg hzero, if_pos hlen]
      rw [hih, hil]
    have hCP : ¬ (finalHighOf env - ih < 0 ∧ 0 < finalLowOf env - il
            ∧ minDelta ≤ |finalHighOf env - ih| ∧ minDelta ≤ finalLowOf env - il)
        ↔ (0 ≤ finalHighOf env - ih ∨ finalLowOf env - il ≤ 0
            ∨ |finalHighOf env - ih| < minDelta ∨ finalLowOf env - il < minDelta) := by
      simp only [not_and_or, not_lt, not_le]
    refine ⟨?_, ?_⟩
    · by_cases hP : (finalHighOf env - ih < 0 ∧ 0 < finalLowOf env - il
          ∧ minDelta ≤ |finalHighOf env - ih| ∧ minDelta ≤ finalLowOf env - il)
      · rw [hform, if_neg (fun hC => (hCP.mpr hC) hP)]
        exact ⟨fun _ => hP, fun _ => rfl⟩
      · rw [hform, if_pos (hCP.mp hP)]
        exact ⟨fun habs => absurd habs (by decide), fun hp => absurd hp hP⟩
    · intro hviol
      rw [hform, if_pos (hCP.mp hviol)]
  · intro hmid
    unfold balance_battery_voltages
    rw [if_neg (by simp), if_neg hzero, if_neg (by simp [hmid])]

/-- Witness for the amended C1 at the spec's own example: initial
(20.50 V, 19.00 V), one mid-operation re-sample, final (20.30 V, 19.15 V),
`min_delta = 0.01` — Verified. -/
theorem balance_verification_amended_witness :
    ((⟨some (41 / 2), some 19, [(none, none)], some (203 / 10), some (383 / 20)⟩ :
        BalanceEnv).midReads ≠ []) ∧
      (balance_battery_voltages [] (1 / 100) false
          ⟨some (41 / 2), some 19, [(none, none)], some (203 / 10), some (383 / 20)⟩).outcome
        = BalanceOutcome.verified := by
  have h := balance_verification_amended
    ⟨some (41 / 2), some 19, [(none, none)], some (203 / 10), some (383 / 20)⟩
    (1 / 100) false (41 / 2) 19 rfl rfl (by norm_num)
  refine ⟨by decide, ((h.1 (by decide)).1).mpr ?_⟩
  have e1 : finalHighOf ⟨some (41 / 2), some 19, [(none, none)], some (203 / 10), some (383 / 20)⟩
      = 203 / 10 := rfl
  have e2 : finalLowOf ⟨some (41 / 2), some 19, [(none, none)], some (203 / 10), some (383 / 20)⟩
      = 383 / 20 := rfl
  rw [e1, e2]
  have e3 : (203 / 10 : ℚ) - 41 / 2 = -(1 / 5) := by norm_num
  rw [e3, abs_neg, abs_of_pos (show (0 : ℚ) < 1 / 5 by norm_num)]
  norm_num

/-! ### Topology facts -/

theorem mem_bankSensorIndices_lt {P B S : ℕ} {l : List ℕ} {i : ℕ}
    (hl : l ∈ bankSensorIndices P B S) (hi : i ∈ l) : i < P * (B * S) := by
  simp only [bankSensorIndices, List.mem_map] at hl
  obtain ⟨bankId, hbid, rfl⟩ := hl
  rw [List.mem_range] at hbid
  simp only [List.mem_flatten, List.mem_map] at hi
  obtain ⟨inner, ⟨bat, hbat, rfl⟩, hin⟩ := hi
  rw [List.mem_range] at hbat
  simp only [List.mem_map, List.mem_range] at hin
  obtain ⟨k, hk, rfl⟩ := hin
  have h1 : bankId * S + k < B * S :=
    calc bankId * S + k < bankId * S + S := by omega
      _ = (bankId + 1) * S := by ring
      _ ≤ B * S := Nat.mul_le_mul_right S hbid
  calc bat * (B * S) + bankId * S + k < bat * (B * S) + B * S := by omega
    _ = (bat + 1) * (B * S) := by ring
    _ ≤ P * (B * S) := Nat.mul_le_mul_right _ hbat

theorem findBank_eq_none {ls : List (List ℕ)} {ch : ℤ} (k : ℕ)
    (h : ∀ l ∈ ls, ∀ i ∈ l, (i : ℤ) ≠ ch - 1) : findBank ls k ch = none := by
  induction ls generalizing k with
  | nil => rfl
  | cons l ls ih =>
    rw [findBank, if_neg, ih (k + 1) (fun l' hl' => h l' (List.mem_cons_of_mem _ hl'))]
    simp only [List.any_eq_true, decide_eq_true_eq, not_exists, not_and]
    exact fun i hi => h l (List.mem_cons_self _ _) i hi

/-- C5 counterexample: `get_battery_and_local_ch` performs no range
check at all.  At the out-of-range channel 0 it fabricates
(battery 0, local channel 24), and for the 48-channel configuration
(2 parallel batteries × 3 banks × 8 sensors) the out-of-range channel 49
gets the fabricated (battery 3, local channel 1) — never an explicit
"out of range" result. -/
theorem battery_and_local_no_range_check :
    get_battery_and_local_ch 0 = (0, 24) ∧ get_battery_and_local_ch 49 = (3, 1) := by
  decide

/-- C5 (amended): for every out-of-range channel, `get_bank_for_channel`
yields the explicit `none`; `get_battery_and_local_ch`, by contrast, has
no range check: it yields a fabricated (battery, local-channel) pair for
every integer input, with battery ids growing without bound. -/
theorem topology_out_of_range (P B S : ℕ) (ch : ℤ)
    (h : ch < 1 ∨ ((P * (B * S) : ℕ) : ℤ) < ch) :
    get_bank_for_channel (bankSensorIndices P B S) ch = none ∧
    ∀ n c : ℤ, 24 * n < c → n < (get_battery_and_local_ch c).1 := by
  constructor
  · apply findBank_eq_none
    intro l hl i hi heq
    have hlt := mem_bankSensorIndices_lt hl hi
    rcases h with h | h
    · omega
    · omega
  · intro n c hc
    have h24 : ((24 : ℤ)) ≠ 0 := by norm_num
    have hfd : (c - 1).fdiv 24 = (c - 1) / 24 := Int.fdiv_eq_ediv _ (by norm_num)
    have hle : n ≤ (c - 1) / 24 := Int.le_ediv_iff_mul_le (by norm_num) |>.mpr (by omega)
    show n < (c - 1).fdiv 24 + 1
    omega

/-- Witness for the amended C5 at the 48-channel configuration and the
out-of-range channel 49. -/
theorem topology_out_of_range_witness :
    ((49 : ℤ) < 1 ∨ (((2 * (3 * 8) : ℕ) : ℤ)) < 49) ∧
      get_bank_for_channel (bankSensorIndices 2 3 8) 49 = none ∧
      (24 * 1 < (49 : ℤ)) ∧ 1 < (get_battery_and_local_ch 49).1 := by
  have h := topology_out_of_range 2 3 8 49 (Or.inr (by decide))
  exact ⟨Or.inr (by decide), h.1, by decide, h.2 1 49 (by decide)⟩

/-- C9 counterexample: for the configuration num_series_banks = 1,
sensors_per_bank = 8, one parallel battery — so
num_series_banks × sensors_per_bank = 8 ≠ 24 — the code's decomposition
agrees with the configured one on every valid channel 1..8, so no
disagreement exists and the claim's universal statement fails at this
configuration. -/
theorem fixed_width_counterexample :
    (1 * 8 ≠ 24) ∧
      ∀ ch : Fin 8, get_battery_and_local_ch (((ch : ℕ) : ℤ) + 1)
        = spec_battery_and_local 1 8 (((ch : ℕ) : ℤ) + 1) := by
  decide

/-- C9 (amended): `get_battery_and_local_ch` always uses the fixed
constant 24, independent of the configuration; and for every
configuration with num_series_banks × sensors_per_bank ≠ 24 in which the
valid channel range reaches past the smaller of the two widths (at
least 2 parallel batteries, or a battery wider than 24), some valid
channel is decomposed differently from the configured topology. -/
theorem fixed_width_amended (P B S : ℕ) (hP : 1 ≤ P) (hB : 1 ≤ B) (hS : 1 ≤ S)
    (hne : B * S ≠ 24) (hcase : 2 ≤ P ∨ 24 < B * S) :
    (∀ ch : ℤ, get_battery_and_local_ch ch = ((ch - 1).fdiv 24 + 1, (ch - 1).fmod 24 + 1)) ∧
    ∃ ch : ℤ, 1 ≤ ch ∧ ch ≤ ((P * (B * S) : ℕ) : ℤ) ∧
      get_battery_and_local_ch ch ≠ spec_battery_and_local B S ch := by
  refine ⟨fun ch => rfl, ?_⟩
  have hBS1 : 1 ≤ B * S := Nat.one_le_iff_ne_zero.mpr (by positivity)
  have hBSz : ((B * S : ℕ) : ℤ) ≠ 0 := by exact_mod_cast Nat.one_le_iff_ne_zero.mp hBS1
  have hBSpos : (0 : ℤ) < ((B * S : ℕ) : ℤ) := by exact_mod_cast hBS1
  have hcast : ((B : ℤ) * (S : ℤ)) = ((B * S : ℕ) : ℤ) := by push_cast; ring
  by_cases hgt : 24 < B * S
  · refine ⟨25, by norm_num, ?_, ?_⟩
    · calc (25 : ℤ) ≤ ((B * S : ℕ) : ℤ) := by exact_mod_cast hgt
        _ ≤ ((P * (B * S) : ℕ) : ℤ) := by
            push_cast
            nlinarith [hBSpos]
    · intro hcontra
      have h1 : (get_battery_and_local_ch 25).1 = 2 := by decide
      have h2 : (spec_battery_and_local B S 25).1 = 1 := by
        show (25 - 1 : ℤ).fdiv ((B : ℤ) * (S : ℤ)) + 1 = 1
        rw [show (25 - 1 : ℤ) = 24 from rfl, hcast, Int.fdiv_eq_ediv _ (by omega),
          Int.ediv_eq_zero_of_lt (by norm_num) (by exact_mod_cast hgt)]
        norm_num
      rw [hcontra, h2] at h1
      exact absurd h1 (by norm_num)
  · -- here B * S < 24 and the disagreeing channel is the first one of
    -- the second parallel battery
    have hlt : B * S < 24 := by omega
    have hP2 : 2 ≤ P := by
      rcases hcase with h2 | h24
      · exact h2
      · omega
    refine ⟨((B * S : ℕ) : ℤ) + 1, by omega, ?_, ?_⟩
    · push_cast
      nlinarith [hBSpos]
    · intro hcontra
      have h1 : (get_battery_and_local_ch (((B * S : ℕ) : ℤ) + 1)).1 = 1 := by
        show (((B * S : ℕ) : ℤ) + 1 - 1).fdiv 24 + 1 = 1
        rw [show ((B * S : ℕ) : ℤ) + 1 - 1 = ((B * S : ℕ) : ℤ) from by ring,
          Int.fdiv_eq_ediv _ (by norm_num),
          Int.ediv_eq_zero_of_lt (by omega) (by exact_mod_cast hlt)]
        norm_num
      have h2 : (spec_battery_and_local B S (((B * S : ℕ) : ℤ) + 1)).1 = 2 := by
        show (((B * S : ℕ) : ℤ) + 1 - 1).fdiv ((B : ℤ) * (S : ℤ)) + 1 = 2
        rw [show ((B * S : ℕ) : ℤ) + 1 - 1 = ((B * S : ℕ) : ℤ) from by ring, hcast,
          Int.fdiv_eq_ediv _ (by omega), Int.ediv_self hBSz]
        norm_num
      rw [hcontra, h2] at h1
      exact absurd h1 (by norm_num)

/-! ### Indexing helpers -/

theorem getD_map_range {α : Type} {n i : ℕ} (hi : i < n) (f : ℕ → α) (d : α) :
    ((List.range n).map f).getD i d = f i := by
  simp [List.getD_eq_getElem?_getD, List.getElem?_range hi]

theorem getD_append_left_lt {α : Type} {l t : List α} {i : ℕ} (h : i < l.length) (d : α) :
    (l ++ t).getD i d = l.getD i d := by
  simp [List.getD_eq_getElem?_getD, List.getElem?_append_left h]

theorem getD_append_add {α : Type} (l t : List α) (m : ℕ) (d : α) :
    (l ++ t).getD (l.length + m) d = t.getD m d := by
  simp only [List.getD_eq_getElem?_getD,
    List.getElem?_append_right (Nat.le_add_right l.length m), Nat.add_sub_cancel_left]

theorem getD_map_get {α β : Type} {l : List α} {i : ℕ} (h : i < l.length) (f : α → β) (d : β) :
    (l.map f).getD i d = f (l.get ⟨i, h⟩) := by
  simp [List.getD_eq_getElem?_getD, List.getElem?_eq_getElem h]

/-- C7 counterexample: the published per-poll voltage of a failed
bank-voltage read (bms.py:3254 publishes `0.0` when
`read_voltage_with_retry` fails) is identical to the published voltage
of a genuine, successful zero-volt reading (ADC raw code 0 twice,
bms.py:1466–1479), so a failed bank-voltage read is indistinguishable
from real data in the published values. -/
theorem failed_voltage_read_publishes_zero :
    read_voltage_with_retry 3 1 [[1000, 2000], [1000, 2000]] (6144 / 1000 / 32767) 1 = none ∧
    publishVoltage
        (read_voltage_with_retry 3 1 [[1000, 2000], [1000, 2000]] (6144 / 1000 / 32767) 1) = 0 ∧
    read_voltage_with_retry 3 1 [[0, 0], [0, 0]] (6144 / 1000 / 32767) 1 = some 0 ∧
    publishVoltage (read_voltage_with_retry 3 1 [[0, 0], [0, 0]] (6144 / 1000 / 32767) 1) = 0 := by
  have hfail : readVoltageGo (6144 / 1000 / 32767) 1 [[1000, 2000], [1000, 2000]] = none := by
    norm_num [readVoltageGo, attemptReadings, voltageOfRaw, List.filter]
  have hzero : readVoltageGo (6144 / 1000 / 32767) 1 [[0, 0], [0, 0]] = some 0 := by
    norm_num [readVoltageGo, attemptReadings, voltageOfRaw, List.filter]
  refine ⟨?_, ?_, ?_, ?_⟩ <;>
    simp [read_voltage_with_retry, hfail, hzero, publishVoltage]

/-- C7 (amended): an acquisition failure on the temperature side is
published distinguishably — a channel whose raw reading is at or below
the sentinel is published as `none`, never as a number — but a failed
bank-voltage read is published as `0.0`, and a genuine zero-volt reading
also publishes `0.0`: on the voltage side failure is indistinguishable
from real data. -/
theorem failure_distinguishability_amended (st : CalibState) (validMin : ℚ) (total : ℕ)
    (raw : List ℚ) (i : ℕ) (hi : i < total) (hraw : raw.getD i 0 ≤ validMin) :
    (calibratedTemps validMin st total raw).getD i (some 0) = none ∧
    (∀ (numBanks bankId : ℕ) (attemptRaws : List (List ℕ)) (ratio calib : ℚ),
      read_voltage_with_retry numBanks bankId attemptRaws ratio calib = none →
      publishVoltage (read_voltage_with_retry numBanks bankId attemptRaws ratio calib) = 0) ∧
    (∃ (raws : List (List ℕ)) (ratio calib : ℚ), readVoltageGo ratio calib raws = some 0) := by
  refine ⟨?_, ?_, ?_⟩
  · rw [calibratedTemps, getD_map_range hi]
    have h1 : ¬ (st.startupSet ∧ validMin < raw.getD i 0) := by
      intro hcon
      exact absurd hcon.2 (not_lt.mpr hraw)
    rw [if_neg h1, if_neg (not_lt.mpr hraw)]
  · intro numBanks bankId attemptRaws ratio calib hnone
    rw [hnone]
    rfl
  · refine ⟨[[0, 0]], 1, 1, ?_⟩
    norm_num [readVoltageGo, attemptReadings, voltageOfRaw, List.filter]

/-- Witness for the amended C7: sentinel channel published as `none`,
and the genuine zero-volt success existing. -/
theorem failure_distinguishability_amended_witness :
    ((0 : ℕ) < 1) ∧ (([(0 : ℚ)].getD 0 0) ≤ (0 : ℚ)) ∧
      (calibratedTemps 0 ⟨false, 0, none⟩ 1 [(0 : ℚ)]).getD 0 (some 0) = none ∧
      (∃ (raws : List (List ℕ)) (ratio calib : ℚ), readVoltageGo ratio calib raws = some 0) := by
  have h := failure_distinguishability_amended ⟨false, 0, none⟩ 0 1 [(0 : ℚ)] 0
    (by decide) (by norm_num)
  exact ⟨by decide, by norm_num, h.1, h.2.2⟩

/-! ### Calibration facts -/

theorem calibrationStep_not_fire {validMin : ℚ} {total : ℕ} {m : ℚ} {o : Option (List ℚ)}
    {q : List ℚ} (hq : q.length = total) (hbad : ∃ t ∈ q, t ≤ validMin) :
    calibrationStep validMin total ⟨false, m, o⟩ q = ⟨false, m, o⟩ := by
  obtain ⟨t, ht, hle⟩ := hbad
  have hcnt : q.countP (fun t => decide (validMin < t)) ≠ total := by
    intro hc
    rw [← hq] at hc
    have hall := List.countP_eq_length.mp hc t ht
    rw [decide_eq_true_eq] at hall
    exact absurd hall (not_lt.mpr hle)
  unfold calibrationStep
  simp [hcnt]

theorem calibrationStep_fixed {validMin : ℚ} {total : ℕ} {m : ℚ} {offs : List ℚ}
    (q : List ℚ) :
    calibrationStep validMin total ⟨true, m, some offs⟩ q = ⟨true, m, some offs⟩ := by
  unfold calibrationStep
  simp

theorem calibrationStep_fires {validMin : ℚ} {total : ℕ} {m : ℚ} {o : Option (List ℚ)}
    {p : List ℚ} (hp : p.length = total) (hvalid : ∀ t ∈ p, validMin < t) :
    calibrationStep validMin total ⟨false, m, o⟩ p
      = ⟨true, pyMedian p, some (p.map (fun t => pyMedian p - t))⟩ := by
  have hcnt : p.countP (fun t => decide (validMin < t)) = total := by
    rw [← hp]
    exact List.countP_eq_length.mpr (fun a ha => decide_eq_true (hvalid a ha))
  unfold calibrationStep
  simp [hcnt]

theorem foldl_calibrationStep_unset (validMin : ℚ) (total : ℕ) (m0 : ℚ)
    (o0 : Option (List ℚ)) (pre : List (List ℚ))
    (hpre : ∀ q ∈ pre, q.length = total ∧ ∃ t ∈ q, t ≤ validMin) :
    List.foldl (calibrationStep validMin total) ⟨false, m0, o0⟩ pre = ⟨false, m0, o0⟩ := by
  induction pre with
  | nil => rfl
  | cons q qs ih =>
    rw [List.foldl_cons,
      calibrationStep_not_fire (hpre q (List.mem_cons_self _ _)).1
        (hpre q (List.mem_cons_self _ _)).2]
    exact ih (fun r hr => hpre r (List.mem_cons_of_mem _ hr))

theorem foldl_calibrationStep_set (validMin : ℚ) (total : ℕ) (m : ℚ) (offs : List ℚ)
    (post : List (List ℚ)) :
    List.foldl (calibrationStep validMin total) ⟨true, m, some offs⟩ post
      = ⟨true, m, some offs⟩ := by
  induction post with
  | nil => rfl
  | cons q qs ih =>
    rw [List.foldl_cons, calibrationStep_fixed]
    exact ih

/-- C4: Calibration one-shot.  Over a run of polls in which every
earlier poll had some channel at or below `valid_min` and poll `p` is
the first with every channel's raw value above `valid_min`, the
Uncalibrated → Calibrated transition fires exactly at `p`: it sets
`offsets[ch] = median(p) - p[ch]` for every channel, the calibrated
values of that poll all equal the startup median, and every later poll
— fully valid or not — leaves median and offsets unchanged. -/
theorem calibration_one_shot (validMin : ℚ) (total : ℕ) (pre : List (List ℚ)) (p : List ℚ)
    (post : List (List ℚ)) (m0 : ℚ) (o0 : Option (List ℚ))
    (hp : p.length = total) (hvalid : ∀ t ∈ p, validMin < t)
    (hpre : ∀ q ∈ pre, q.length = total ∧ ∃ t ∈ q, t ≤ validMin) :
    List.foldl (calibrationStep validMin total) ⟨false, m0, o0⟩ (pre ++ p :: post)
      = ⟨true, pyMedian p, some (p.map (fun t => pyMedian p - t))⟩ ∧
    (∀ i, i < total →
      (calibratedTemps validMin
          ⟨true, pyMedian p, some (p.map (fun t => pyMedian p - t))⟩ total p).getD i none
        = some (pyMedian p)) ∧
    (∀ q : List ℚ,
      calibrationStep validMin total
          ⟨true, pyMedian p, some (p.map (fun t => pyMedian p - t))⟩ q
        = ⟨true, pyMedian p, some (p.map (fun t => pyMedian p - t))⟩) := by
  refine ⟨?_, ?_, fun q => calibrationStep_fixed q⟩
  · rw [List.foldl_append, foldl_calibrationStep_unset validMin total m0 o0 pre hpre,
      List.foldl_cons, calibrationStep_fires hp hvalid, foldl_calibrationStep_set]
  · intro i hi
    have hip : i < p.length := hp ▸ hi
    have hmem : p.get ⟨i, hip⟩ ∈ p := List.get_mem p i hip
    have hgd : p.getD i 0 = p.get ⟨i, hip⟩ := by
      simp [List.getD_eq_getElem?_getD, List.getElem?_eq_getElem hip]
    rw [calibratedTemps, getD_map_range hi]
    rw [if_pos ⟨rfl, by rw [hgd]; exact hvalid _ hmem⟩]
    simp only [Option.getD_some]
    rw [getD_map_get hip]
    rw [hgd]
    ring_nf

/-- Witness for C4 at the spec's example: an invalid first poll, then
the fully valid poll `[23, 25, 27]` (median 25.0, channel-1 offset 2.0,
calibrated 25.0), then a later fully valid poll that recomputes
nothing. -/
theorem calibration_one_shot_witness :
    List.foldl (calibrationStep 0 3) ⟨false, 0, none⟩ [[0, 30, 30], [23, 25, 27], [30, 31, 32]]
      = ⟨true, 25, some [2, 0, -2]⟩ ∧
    (calibratedTemps 0 ⟨true, 25, some [2, 0, -2]⟩ 3 [23, 25, 27]).getD 0 none = some 25 := by
  have h := calibration_one_shot 0 3 [[0, 30, 30]] [23, 25, 27] [[30, 31, 32]] 0 none
    (by decide) (by norm_num) (by norm_num)
  have hmed : pyMedian [23, 25, 27] = 25 := by
    norm_num [pyMedian, List.insertionSort, List.orderedInsert]
  rw [hmed] at h
  have hoffs : List.map (fun t => (25 : ℚ) - t) [23, 25, 27] = [2, 0, -2] := by
    norm_num
  rw [hoffs] at h
  exact ⟨h.1, h.2.1 0 (by norm_num)⟩

/-! ### Chunked-list facts for the poll assembly -/

theorem flatten_getD_uniform {α : Type} {chunks : List (List α)} {c : ℕ}
    (huni : ∀ l ∈ chunks, l.length = c) :
    ∀ {u : ℕ}, u < chunks.length → ∀ {k : ℕ}, k < c → ∀ d : α,
      chunks.flatten.getD (u * c + k) d = (chunks.getD u []).getD k d := by
  induction chunks with
  | nil =>
    intro u hu
    simp at hu
  | cons l ls ih =>
    intro u hu k hk d
    cases u with
    | zero =>
      rw [List.flatten_cons, Nat.zero_mul, Nat.zero_add,
        getD_append_left_lt (by rw [huni l (List.mem_cons_self _ _)]; exact hk),
        List.getD_cons_zero]
    | succ u' =>
      have hl : l.length = c := huni l (List.mem_cons_self _ _)
      have harith : (u' + 1) * c + k = l.length + (u' * c + k) := by rw [hl]; ring
      rw [List.flatten_cons, harith, getD_append_add, List.getD_cons_succ]
      exact ih (fun x hx => huni x (List.mem_cons_of_mem _ hx))
        (Nat.lt_of_succ_lt_succ hu) hk d

theorem flatten_length_uniform {α : Type} {chunks : List (List α)} {c : ℕ}
    (huni : ∀ l ∈ chunks, l.length = c) :
    chunks.flatten.length = chunks.length * c := by
  induction chunks with
  | nil => simp
  | cons l ls ih =>
    rw [List.flatten_cons, List.length_append, huni l (List.mem_cons_self _ _),
      ih (fun x hx => huni x (List.mem_cons_of_mem _ hx)), List.length_cons]
    ring

theorem length_filterMap_lt {α β : Type} {f : α → Option β} {l : List α} {a : α}
    (ha : a ∈ l) (hf : f a = none) : (l.filterMap f).length < l.length := by
  induction l with
  | nil => cases ha
  | cons b t ih =>
    rcases List.mem_cons.mp ha with rfl | hmem
    · rw [List.filterMap_cons, hf]
      exact Nat.lt_succ_of_le (List.length_filterMap_le f t)
    · have hle := List.length_filterMap_le f t
      rcases hfb : f b with _ | v <;>
        simp only [List.filterMap_cons, hfb, List.length_cons]
      · exact Nat.lt_succ_of_lt (ih hmem)
      · exact Nat.succ_lt_succ (ih hmem)

theorem length_bankSensorIndices (P B S : ℕ) : (bankSensorIndices P B S).length = B := by
  simp [bankSensorIndices]

theorem compute_bank_medians_invalid_pos {bsi : List (List ℕ)} {calibrated : List (Option ℚ)}
    {b : ℕ} (hb : b < bsi.length) {i : ℕ} (hmem : i ∈ bsi.getD b [])
    (hnone : calibrated.getD i none = none) :
    0 < ((compute_bank_medians bsi calibrated).getD b ⟨0, 0, 0, 0⟩).invalid := by
  have hget : bsi.get ⟨b, hb⟩ = bsi.getD b [] := by
    simp [List.getD_eq_getElem?_getD, List.getElem?_eq_getElem hb]
  rw [compute_bank_medians, getD_map_get hb, hget]
  have hflt := length_filterMap_lt (f := fun j => calibrated.getD j none) hmem hnone
  dsimp only
  split <;> · dsimp only; omega

/-- Witness for the amended C9 at the configuration 2 parallel batteries,
1 bank of 8 sensors (banks × sensors = 8 ≠ 24). -/
theorem fixed_width_amended_witness :
    (1 * 8 ≠ 24) ∧ ((2 : ℕ) ≤ 2 ∨ 24 < 1 * 8) ∧
      ∃ ch : ℤ, 1 ≤ ch ∧ ch ≤ ((2 * (1 * 8) : ℕ) : ℤ) ∧
        get_battery_and_local_ch ch ≠ spec_battery_and_local 1 8 ch :=
  ⟨by decide, Or.inl (by decide),
    (fixed_width_amended 2 1 8 (by decide) (by decide) (by decide) (by decide)
      (Or.inl (by decide))).2⟩

/-- C10: Failed-unit sentinel propagation.  When unit `u`'s temperature
read returns an error string, each of its channels `i = u·spb + k`
receives the `valid_min` sentinel in the assembled raw vector; in that
poll the channel raises exactly one alert — the invalid-reading alert
carrying its battery/bank/local identity — and no high/low/deviation
alert, its calibrated value is `none` (so it is excluded from the value
checks), the calibration transition cannot fire, and the channel counts
toward its bank's invalid count in the bank statistics. -/
theorem failed_unit_sentinel (P B S u k : ℕ)
    (validMin hiThr loThr absDevThr relDevThr : ℚ) (bankMedians : List ℚ)
    (st : CalibState) (unitResults : List (Option (List ℚ)))
    (raw : List ℚ) (calibrated : List (Option ℚ))
    (hS : 0 < S) (hu : u < P)
    (hlen : unitResults.length = P)
    (hnone : unitResults.getD u (some []) = none)
    (hsizes : ∀ r ∈ unitResults, ∀ ts, r = some ts → ts.length = B * S)
    (hk : k < B * S)
    (hraw : raw = assembleRaw validMin (B * S) unitResults)
    (hcal : calibrated = calibratedTemps validMin st (P * (B * S)) raw) :
    raw.getD (u * (B * S) + k) 0 = validMin ∧
    (st.startupSet = false →
      calibrationStep validMin (P * (B * S)) st raw = st) ∧
    calibrated.getD (u * (B * S) + k) (some 0) = none ∧
    channelStaticAlerts validMin hiThr loThr absDevThr relDevThr (bankSensorIndices P B S)
        bankMedians raw calibrated (u * (B * S) + k)
      = [TempAlert.invalidReading
          (get_battery_and_local_ch (((u * (B * S) + k : ℕ) : ℤ) + 1)).1
          (get_bank_for_channel (bankSensorIndices P B S) (((u * (B * S) + k : ℕ) : ℤ) + 1))
          (get_battery_and_local_ch (((u * (B * S) + k : ℕ) : ℤ) + 1)).2] ∧
    TempAlert.invalidReading
        (get_battery_and_local_ch (((u * (B * S) + k : ℕ) : ℤ) + 1)).1
        (get_bank_for_channel (bankSensorIndices P B S) (((u * (B * S) + k : ℕ) : ℤ) + 1))
        (get_battery_and_local_ch (((u * (B * S) + k : ℕ) : ℤ) + 1)).2
      ∈ staticChecks validMin hiThr loThr absDevThr relDevThr (bankSensorIndices P B S)
          bankMedians raw calibrated ∧
    (u * (B * S) + k) ∈ (bankSensorIndices P B S).getD (k / S) [] ∧
    0 < ((compute_bank_medians (bankSensorIndices P B S) calibrated).getD (k / S)
        ⟨0, 0, 0, 0⟩).invalid := by
  set i := u * (B * S) + k with hidef
  set f : Option (List ℚ) → List ℚ := fun r =>
    match r with
    | none => List.replicate (B * S) validMin
    | some ts => ts with hfdef
  have huni : ∀ l ∈ unitResults.map f, l.length = B * S := by
    intro l hl
    rcases List.mem_map.mp hl with ⟨r, hr, rfl⟩
    cases r with
    | none => simp [hfdef]
    | some ts => exact hsizes (some ts) hr ts rfl
  have hu' : u < unitResults.length := hlen ▸ hu
  have hget : unitResults.get ⟨u, hu'⟩ = none := by
    rw [← hnone]
    simp [List.getD_eq_getElem?_getD, List.getElem?_eq_getElem hu']
  have hchunk : (unitResults.map f).getD u [] = List.replicate (B * S) validMin := by
    rw [getD_map_get hu', hget]
  have h1 : raw.getD i 0 = validMin := by
    rw [hraw, assembleRaw]
    rw [flatten_getD_uniform huni (by rw [List.length_map]; exact hu') hk 0, hchunk]
    simp [List.getD_eq_getElem?_getD, List.getElem?_replicate_of_lt hk]
  have hrawlen : raw.length = P * (B * S) := by
    rw [hraw, assembleRaw, flatten_length_uniform huni, List.length_map, hlen]
  have hitotal : i < P * (B * S) :=
    calc i < u * (B * S) + B * S := by omega
      _ = (u + 1) * (B * S) := by ring
      _ ≤ P * (B * S) := Nat.mul_le_mul_right _ hu
  have hnotlt : ¬ validMin < raw.getD i 0 := by
    rw [h1]
    exact lt_irrefl _
  have hcalnone : calibrated.getD i (some 0) = none := by
    rw [hcal, calibratedTemps, getD_map_range hitotal]
    dsimp only
    rw [if_neg (fun hcon => hnotlt hcon.2), if_neg hnotlt]
  have hcalnone' : calibrated.getD i none = none := by
    rw [hcal, calibratedTemps, getD_map_range hitotal]
    dsimp only
    rw [if_neg (fun hcon => hnotlt hcon.2), if_neg hnotlt]
  have hchan : channelStaticAlerts validMin hiThr loThr absDevThr relDevThr
      (bankSensorIndices P B S) bankMedians raw calibrated i
      = [TempAlert.invalidReading
          (get_battery_and_local_ch ((i : ℤ) + 1)).1
          (get_bank_for_channel (bankSensorIndices P B S) ((i : ℤ) + 1))
          (get_battery_and_local_ch ((i : ℤ) + 1)).2] := by
    rw [channelStaticAlerts]
    simp only [h1]
    rw [if_pos (le_refl validMin)]
  have hkS : k / S < B := (Nat.div_lt_iff_lt_mul hS).mpr hk
  have hbmem : i ∈ (bankSensorIndices P B S).getD (k / S) [] := by
    rw [bankSensorIndices, getD_map_range hkS]
    apply List.mem_flatten.mpr
    refine ⟨(List.range S).map (fun j => u * (B * S) + (k / S) * S + j), ?_, ?_⟩
    · exact List.mem_map.mpr ⟨u, List.mem_range.mpr hu, rfl⟩
    · refine List.mem_map.mpr ⟨k % S, List.mem_range.mpr (Nat.mod_lt _ hS), ?_⟩
      have hdm : S * (k / S) + k % S = k := Nat.div_add_mod k S
      have hcomm : k / S * S = S * (k / S) := Nat.mul_comm _ _
      omega
  refine ⟨h1, ?_, hcalnone, hchan, ?_, hbmem, ?_⟩
  · intro hset
    have hmem : validMin ∈ raw := by
      have hil : i < raw.length := hrawlen ▸ hitotal
      have hgm : raw.getD i 0 ∈ raw := by
        rw [List.getD_eq_getElem?_getD, List.getElem?_eq_getElem hil]
        exact List.getElem_mem _
      rwa [h1] at hgm
    obtain ⟨s0, m0, o0⟩ := st
    obtain rfl : s0 = false := hset
    exact calibrationStep_not_fire hrawlen ⟨validMin, hmem, le_refl _⟩
  · rw [staticChecks]
    apply List.mem_flatten.mpr
    refine ⟨channelStaticAlerts validMin hiThr loThr absDevThr relDevThr
      (bankSensorIndices P B S) bankMedians raw calibrated i, ?_, ?_⟩
    · exact List.mem_map.mpr ⟨i, List.mem_range.mpr (hrawlen ▸ hitotal), rfl⟩
    · rw [hchan]
      exact List.mem_singleton.mpr rfl
  · exact compute_bank_medians_invalid_pos
      (by rw [length_bankSensorIndices]; exact hkS) hbmem hcalnone'

/-- Witness for C10: two units of one bank with two sensors each,
unit 0 failed (`valid_min = 0`), unit 1 read `[30, 31]`. -/
theorem failed_unit_sentinel_witness :
    ([(0 : ℚ), 0, 30, 31].getD (0 * (1 * 2) + 0) 0 = 0) ∧
    calibrationStep 0 (2 * (1 * 2)) ⟨false, 0, none⟩ [(0 : ℚ), 0, 30, 31]
      = ⟨false, 0, none⟩ ∧
    ([none, none, some (30 : ℚ), some 31].getD (0 * (1 * 2) + 0) (some 0) = none) ∧
    0 < ((compute_bank_medians (bankSensorIndices 2 1 2)
        [none, none, some (30 : ℚ), some 31]).getD (0 / 2) ⟨0, 0, 0, 0⟩).invalid := by
  have h := failed_unit_sentinel 2 1 2 0 0 0 40 5 2 (1 / 10) [30] ⟨false, 0, none⟩
    [none, some [30, 31]] [0, 0, 30, 31] [none, none, some 30, some 31]
    (by decide) (by decide) (by decide) (by decide)
    (by
      intro r hr ts hts
      rcases List.mem_cons.mp hr with rfl | hr2
      · exact absurd hts (by simp)
      · rcases List.mem_cons.mp hr2 with rfl | hr3
        · obtain rfl := Option.some.inj hts
          rfl
        · cases hr3)
    (by decide) (by decide) (by decide)
  exact ⟨h.1, h.2.1 rfl, h.2.2.1, h.2.2.2.2.2.2⟩

end Bms
